import Mathlib

/-!
Verification of the training/evaluation pipeline in
`src/hanshan/train_wsdm_pl.py` (repository nstfk/WSDM-Cup-2019).

The development shallowly embeds the pieces of the script that the
specification talks about:

* the per-batch body of the training loop (lines 375-420): loss scaling,
  gradient accumulation, the fp16/CPU-optimizer non-finite-gradient
  back-off, and the global step counter;
* the end-of-epoch bookkeeping (lines 422-424);
* the `tune` evaluation function (lines 23-65): mean eval loss/accuracy,
  the best-checkpoint decision `eval_loss == np.min(tune_losses)`, the
  probability table written with `save_preds`, and the checkpoint key
  `run_name + str(epoch)`;
* the configuration / data-loading order of `main` (lines 189-428),
  modelled as a sequence of observable events together with the first
  raised Python error, if any;
* the train-batch-size rewrite `int(train_batch_size /
  gradient_accumulation_steps)` (line 223) and the chunking of a
  sequentially sampled dataset into dataloader batches.

Scalar tensor values (losses, logits) are modelled as rationals; the
external non-finite-gradient test of `bert.util.set_optimizer_params_grad`
is an oracle bit carried by each batch; the exponential inside `F.softmax`
is an abstract positive function.
-/

namespace Hanshan

/-! ## Training loop (lines 360-424) -/

/-- Flags of `args` read by the training-loop body: `args.fp16`,
`args.optimize_on_cpu` and `args.gradient_accumulation_steps`.
(`args.loss_scale` is mutable state and is threaded through `TrState`.) -/
structure Config where
  fp16 : Bool
  optimize_on_cpu : Bool
  gradient_accumulation_steps : ℕ
deriving DecidableEq

/-- One training batch as seen by the loop body: the model's scalar loss
for the batch (after the multi-GPU `loss.mean()` of line 385), the number
of examples whose arg-max prediction equals the arg-max label, the batch
size `labels.size(0)`, and the outcome of the external non-finite-gradient
test (`set_optimizer_params_grad(..., test_nan=True)`, line 404) in case it
is consulted at this batch. -/
structure Batch where
  loss : ℚ
  correct : ℕ
  size : ℕ
  gradNan : Bool
deriving DecidableEq

/-- An optimizer/gradient event of the loop: the 1-based index of the batch
at which it happened, whether `optimizer.step()` ran, and whether
`model.zero_grad()` ran. -/
structure TrainEvent where
  idx : ℕ
  update : Bool
  clear : Bool
deriving DecidableEq

/-- Mutable state of the training loop: the current loss-scale factor
(`args.loss_scale`), the global step counter (`global_step`), the
accumulated per-batch gradient contributions since the last
`model.zero_grad()` (abstracted by the backpropagated scalar loss of each
contributing batch), the epoch accumulators `tr_loss`, `tr_acc`,
`nb_tr_steps`, `nb_tr_examples`, and the trace of optimizer/gradient
events so far. -/
structure TrState where
  lossScale : ℚ
  globalStep : ℕ
  grads : List ℚ
  trLoss : ℚ
  trAcc : ℚ
  nbTrSteps : ℕ
  nbTrExamples : ℕ
  trace : List TrainEvent
deriving DecidableEq

/-- Lines 379-395: forward pass, accuracy tracking, loss rescaling for fp16
(line 386-389), division by the accumulation count (line 390-391),
`loss.backward()` (the gradient contribution is appended to `grads`), and
the `tr_loss`/`tr_acc`/`nb_tr_examples`/`nb_tr_steps` updates. -/
def accumulateBatch (cfg : Config) (s : TrState) (b : Batch) : TrState :=
  let loss1 := if cfg.fp16 = true ∧ s.lossScale ≠ 1 then b.loss * s.lossScale else b.loss
  let loss2 := if 1 < cfg.gradient_accumulation_steps
               then loss1 / (cfg.gradient_accumulation_steps : ℚ) else loss1
  { s with
    grads := s.grads ++ [loss2]
    trLoss := s.trLoss + loss2
    trAcc := s.trAcc + (b.correct : ℚ) / (b.size : ℚ)
    nbTrExamples := s.nbTrExamples + b.size
    nbTrSteps := s.nbTrSteps + 1 }

/-- Lines 397-420, the body of `if (step + 1) % gradient_accumulation_steps
== 0`. In fp16 or CPU-optimizer mode the gradients are first rescaled (an
effect on the external optimizer copy only, lines 398-403) and tested for
non-finite values; on detection the loss scale is halved, the gradients
cleared, and the loop `continue`s without `optimizer.step()` and without
advancing `global_step` (lines 408-413). Otherwise (and always outside
fp16/CPU mode) `optimizer.step()`, `model.zero_grad()` and `global_step +=
1` run (lines 414-420). -/
def boundaryStep (cfg : Config) (s : TrState) (idx : ℕ) (gradNan : Bool) : TrState :=
  if (cfg.fp16 || cfg.optimize_on_cpu) = true then
    if gradNan = true then
      { s with
        lossScale := s.lossScale / 2
        grads := []
        trace := s.trace ++ [⟨idx, false, true⟩] }
    else
      { s with
        globalStep := s.globalStep + 1
        grads := []
        trace := s.trace ++ [⟨idx, true, true⟩] }
  else
    { s with
      globalStep := s.globalStep + 1
      grads := []
      trace := s.trace ++ [⟨idx, true, true⟩] }

/-- One iteration of `for step, batch in enumerate(train_dataloader)`
(lines 375-420): accumulate the batch, then run the update-boundary body
when `(step + 1) % gradient_accumulation_steps == 0`. -/
def trainBatch (cfg : Config) (s : TrState) (step : ℕ) (b : Batch) : TrState :=
  if (step + 1) % cfg.gradient_accumulation_steps = 0 then
    boundaryStep cfg (accumulateBatch cfg s b) (step + 1) b.gradNan
  else
    accumulateBatch cfg s b

/-- The remainder of one epoch: fold `trainBatch` over the remaining
batches, threading the 0-based step index. -/
def runEpochAux (cfg : Config) : TrState → ℕ → List Batch → TrState
  | s, _, [] => s
  | s, t, b :: bs => runEpochAux cfg (trainBatch cfg s t b) (t + 1) bs

/-- State at the start of an epoch: the loss scale and global step carried
over from before, and the per-epoch accumulators of lines 373-374 reset to
zero. -/
def epochStart (lossScale : ℚ) (globalStep : ℕ) : TrState :=
  ⟨lossScale, globalStep, [], 0, 0, 0, 0, []⟩

/-- One full training epoch (lines 372-420), starting from step index 0. -/
def runEpoch (cfg : Config) (lossScale : ℚ) (globalStep : ℕ) (bs : List Batch) : TrState :=
  runEpochAux cfg (epochStart lossScale globalStep) 0 bs

/-- Lines 422-424: the pair appended to `train_losses` and `train_accs` at
the end of an epoch, namely `tr_loss / nb_tr_steps` and
`tr_acc / nb_tr_steps`. -/
def epochRecord (cfg : Config) (lossScale : ℚ) (bs : List Batch) : ℚ × ℚ :=
  let s := runEpoch cfg lossScale 0 bs
  (s.trLoss / (s.nbTrSteps : ℚ), s.trAcc / (s.nbTrSteps : ℚ))

/-- The 1-based batch indices `t + 1, ..., t + n` that satisfy
`(step + 1) % gradient_accumulation_steps == 0`, i.e. are multiples of the
accumulation count `k`. -/
def updateIndicesFrom (k t : ℕ) : ℕ → List ℕ
  | 0 => []
  | n + 1 =>
      (if (t + 1) % k = 0 then [t + 1] else []) ++ updateIndicesFrom k (t + 1) n

/-- The 1-based batch indices in `1..n` that are multiples of the
accumulation count `k` (see `mem_updateIndices` for this
characterization). -/
def updateIndices (k n : ℕ) : List ℕ :=
  updateIndicesFrom k 0 n

/-- The optimizer/gradient events produced by a nan-free epoch segment that
covers batch steps `t, t+1, ...` for `n` batches. -/
def traceSeg (k t : ℕ) : ℕ → List TrainEvent
  | 0 => []
  | n + 1 =>
      (if (t + 1) % k = 0 then [(⟨t + 1, true, true⟩ : TrainEvent)] else [])
        ++ traceSeg k (t + 1) n

/-! ## The `tune` evaluation function (lines 23-65) -/

/-- One evaluation batch: the batch loss `loss.mean().item()` (line 38),
the per-example 3-class logits rows of the batch, and the quantities
feeding `eval_acc` (line 45): the number of arg-max matches and
`labels.size(0)`. -/
structure EvalBatch where
  loss : ℚ
  logitsRows : List (List ℚ)
  correct : ℕ
  size : ℕ
deriving DecidableEq

/-- A comma-separated table written by `probs.to_csv` (line 56): the column
names and the rows of class probabilities. -/
structure CsvWrite where
  columns : List String
  rows : List (List ℚ)
deriving DecidableEq

/-- Modelled from the spec: `Saver` lives in `bert.util`, outside `src/`.
Per specification section 4.4, `saver.save(model, name, is_best)` persists
the model state under the checkpoint name `name` and writes/overwrites the
"best" marker exactly when `is_best` is true. A `SaveCall` records the
arguments of one such call (line 63). -/
structure SaveCall where
  name : String
  isBest : Bool
deriving DecidableEq

/-- Observable result of one `tune` call: the mean eval loss and accuracy,
the updated `tune_losses` list, the CSV writes performed, and the
`saver.save` call made. -/
structure TuneResult where
  evalLoss : ℚ
  evalAcc : ℚ
  tuneLosses : List ℚ
  writes : List CsvWrite
  saveCall : SaveCall
deriving DecidableEq

/-- Minimum of a nonempty list, as computed by `np.min` on the Python list
`tune_losses` (line 60); the `[]` case is never reached because the new
loss has just been appended. -/
def npMin : List ℚ → ℚ
  | [] => 0
  | x :: xs => xs.foldl min x

/-- Line 60, `is_best = eval_loss == np.min(tune_losses)`, where
`tune_losses` already contains the freshly appended `eval_loss`
(line 50). -/
def isBestCalc (priorLosses : List ℚ) (newLoss : ℚ) : Bool :=
  decide (newLoss = npMin (priorLosses ++ [newLoss]))

/-- Softmax over one logits row (line 42, `F.softmax(logits, dim=1)`),
parameterized by the exponential `f`, an external capability of the numeric
runtime. -/
def softmax (f : ℚ → ℚ) (xs : List ℚ) : List ℚ :=
  xs.map (fun x => f x / (xs.map f).sum)

/-- The `tune` function (lines 23-65): iterate the evaluation batches
sequentially, average the batch losses over `nb_eval_steps` and the batch
accuracies over `len(eval_dataloader)` (both equal the number of batches),
append the mean loss to `tune_losses`, write the probability table exactly
once when `save_preds` is set (lines 53-56), and call
`saver.save(model, run_name + str(epoch), is_best)` (line 63). -/
def tune (f : ℚ → ℚ) (run_name : String) (epoch : ℕ)
    (batches : List EvalBatch) (priorLosses : List ℚ) (savePreds : Bool) : TuneResult :=
  let n := batches.length
  let evalLoss := (batches.map EvalBatch.loss).sum / (n : ℚ)
  let evalAcc := (batches.map (fun b => (b.correct : ℚ) / (b.size : ℚ))).sum / (n : ℚ)
  let probs := (batches.map (fun b => b.logitsRows.map (softmax f))).flatten
  { evalLoss := evalLoss
    evalAcc := evalAcc
    tuneLosses := priorLosses ++ [evalLoss]
    writes := if savePreds = true
              then [⟨["agreed", "disagreed", "unrelated"], probs⟩] else []
    saveCall := ⟨run_name ++ toString epoch, isBestCalc priorLosses evalLoss⟩ }

/-- The `is_best` decisions of a sequence of evaluation passes whose mean
losses are the given list, starting from the given prior `tune_losses`. -/
def bestMarkersAux : List ℚ → List ℚ → List Bool
  | _, [] => []
  | prior, l :: ls => isBestCalc prior l :: bestMarkersAux (prior ++ [l]) ls

/-- The `is_best` decisions of a run whose evaluation passes have the given
mean losses, in order. -/
def bestMarkers (losses : List ℚ) : List Bool :=
  bestMarkersAux [] losses

/-! ## Configuration checks and data-loading order of `main` (lines 189-428) -/

/-- The task processors registered in the `processors` dict
(lines 192-200). -/
inductive ProcKind where
  | cola | mnli | mrpc | wsdm | arct | wsdmPseudo | mnliPseudo
deriving DecidableEq, BEq

/-- The `processors` dict of lines 192-200, as an association list. -/
def processors : List (String × ProcKind) :=
  [("cola", ProcKind.cola), ("mnli", ProcKind.mnli), ("mrpc", ProcKind.mrpc),
   ("wsdm", ProcKind.wsdm), ("arct", ProcKind.arct),
   ("wsdm_pseudo", ProcKind.wsdmPseudo), ("mnli_pseudo", ProcKind.mnliPseudo)]

/-- The command-line arguments read by the configuration and loading phase
of `main`. -/
structure Args where
  run_name : String
  task_name : String
  do_train : Bool
  do_eval : Bool
  gradient_accumulation_steps : Int
  train_batch_size : Int
  resume : Bool
  resume_epoch : Int
deriving DecidableEq

/-- External facts `main` observes: whether `args.output_dir` exists and is
nonempty (line 235). -/
structure Env where
  outputDirNonEmpty : Bool
deriving DecidableEq

/-- The externally observable actions of `main`, in program order. -/
inductive Event where
  | loadTokenizer
  | loadTrainExamples
  | loadModel
  | loadCheckpoint (ckptDir : String) (name : String) (loadOptimizer : Bool)
  | convertTrainFeatures
  | loadDevExamples
  | convertDevFeatures
  | runTraining
  | evalPass
deriving DecidableEq, BEq

/-- The Python exceptions `main` can raise during configuration and data
preparation. -/
inductive PyError where
  | valueErrorGradAccum
  | valueErrorTrainEval
  | valueErrorOutputDir
  | valueErrorTaskNotFound
  | typeErrorNoneNotIterable
deriving DecidableEq, BEq

/-- Line 190: `args.task_name = 'wsdm_pseudo'`, overwriting whatever was
passed on the command line. -/
def effArgs (a : Args) : Args :=
  { a with task_name := "wsdm_pseudo" }

/-- Python `str.lower()` applied to the task name (line 240), mapping each
character to lower case. -/
def lowerString (s : String) : String :=
  String.mk (s.data.map Char.toLower)

/-- Lines 240-243: lower-case the task name and raise `ValueError("Task not
found")` when it is not a key of `processors`. -/
def taskCheck (a : Args) : Option PyError :=
  if (processors.lookup (lowerString a.task_name)).isSome then none
  else some PyError.valueErrorTaskNotFound

/-- Modelled from the spec: `convert_examples_to_features` lives in
`bert.util`, outside `src/`. Per specification section 4.1 it converts each
raw Example of the given collection into fixed-length tensors, iterating
the collection; called on the value `None` (which is what `train_examples`
holds when `do_train` is not set, line 251), iterating `None` raises a
TypeError. -/
def convertExamplesOutcome (examples : Option Unit) : Option PyError :=
  match examples with
  | none => some PyError.typeErrorNoneNotIterable
  | some _ => none

/-- The hard-coded checkpoint directory of line 276. -/
def fixedCkptDir : String := "../zake7749/data/bert/reproduce_bert"

/-- The configuration and data-preparation phase of `main`, in source
order: the task-name overwrite (line 190), the
`gradient_accumulation_steps` check (line 218), the `do_train`/`do_eval`
check (line 232), the output-directory check (line 235), the task lookup
(lines 240-243), tokenizer loading (line 249), `get_train_examples` under
`do_train` (lines 253-254), model creation (line 260), the unconditional
`saver.load(model, 'PseudoFirstLevel', False, load_optimizer=False)`
(lines 276-278), the unconditional train-feature conversion of
`train_examples` (line 316), dev-set loading and conversion (lines
336-339), the training epochs under `do_train` (line 362), and the final
`tune` call (line 427). Returns the events performed, in order, and the
first error raised, if any. -/
def mainRun (a0 : Args) (env : Env) : List Event × Option PyError :=
  let a := effArgs a0
  if a.gradient_accumulation_steps < 1 then
    ([], some PyError.valueErrorGradAccum)
  else if a.do_train = false ∧ a.do_eval = false then
    ([], some PyError.valueErrorTrainEval)
  else if env.outputDirNonEmpty = true then
    ([], some PyError.valueErrorOutputDir)
  else
    match taskCheck a with
    | some e => ([], some e)
    | none =>
      let ev1 := [Event.loadTokenizer]
      let ev2 := ev1 ++ (if a.do_train = true then [Event.loadTrainExamples] else [])
      let ev3 := ev2 ++ [Event.loadModel,
                         Event.loadCheckpoint fixedCkptDir "PseudoFirstLevel" false]
      let trainExamples : Option Unit := if a.do_train = true then some () else none
      match convertExamplesOutcome trainExamples with
      | some e => (ev3, some e)
      | none =>
        let ev4 := ev3 ++ [Event.convertTrainFeatures, Event.loadDevExamples,
                           Event.convertDevFeatures]
        let ev5 := ev4 ++ (if a.do_train = true then [Event.runTraining] else [])
        (ev5 ++ [Event.evalPass], none)

/-- Recognizer for checkpoint-loading events. -/
def isLoadCheckpoint : Event → Bool
  | Event.loadCheckpoint _ _ _ => true
  | _ => false

/-! ## Train batch size and dataloader chunking (lines 223-224 and 332-333) -/

/-- Embeds line 223, `args.train_batch_size = int(args.train_batch_size /
args.gradient_accumulation_steps)`: Python true division of nonnegative
integers followed by `int()` truncation, which is the floor, i.e. natural
division. -/
def usedTrainBatchSize (train_batch_size k : ℕ) : ℕ :=
  train_batch_size / k

/-- Batches produced by a dataloader of batch size `bs` over a sequentially
ordered dataset, with fuel bounding the recursion depth. -/
def chunkAux {α : Type} (bs : ℕ) : ℕ → List α → List (List α)
  | 0, _ => []
  | _, [] => []
  | fuel + 1, l => l.take bs :: chunkAux bs fuel (l.drop bs)

/-- Batches produced by a dataloader of batch size `bs` over a sequentially
ordered dataset. -/
def chunkList {α : Type} (bs : ℕ) (l : List α) : List (List α) :=
  chunkAux bs l.length l

/-- The training dataloader of lines 332-333, whose `batch_size` is the
rewritten `args.train_batch_size` of line 223. -/
def trainDataloaderBatches {α : Type} (train_batch_size k : ℕ) (data : List α) :
    List (List α) :=
  chunkList (usedTrainBatchSize train_batch_size k) data

/-! ## Concrete inputs used by counterexamples and witnesses -/

/-- A configuration whose task name is not a key of `processors` but which
is otherwise valid. -/
def badTaskArgs : Args :=
  { run_name := "run1", task_name := "no_such_task", do_train := true,
    do_eval := false, gradient_accumulation_steps := 1, train_batch_size := 32,
    resume := false, resume_epoch := 1 }

/-- A configuration selecting evaluation only (`do_eval` without
`do_train`). -/
def evalOnlyArgs : Args :=
  { run_name := "run1", task_name := "wsdm_pseudo", do_train := false,
    do_eval := true, gradient_accumulation_steps := 1, train_batch_size := 32,
    resume := false, resume_epoch := 1 }

/-- A configuration asking to resume run `myrun` from epoch 7. -/
def resumeArgs : Args :=
  { run_name := "myrun", task_name := "wsdm", do_train := true, do_eval := false,
    gradient_accumulation_steps := 1, train_batch_size := 32,
    resume := true, resume_epoch := 7 }

/-- Two nan-free training batches of model loss 1 each. -/
def c7Batches : List Batch :=
  [⟨1, 1, 1, false⟩, ⟨1, 1, 1, false⟩]

/-!
# Theorems

Helper lemmas first, then one theorem per claim (with counterexamples and
witnesses where required).
-/

/-! ## Helper lemmas on the training loop -/

theorem accumulateBatch_globalStep (cfg : Config) (s : TrState) (b : Batch) :
    (accumulateBatch cfg s b).globalStep = s.globalStep := rfl

theorem accumulateBatch_lossScale (cfg : Config) (s : TrState) (b : Batch) :
    (accumulateBatch cfg s b).lossScale = s.lossScale := rfl

theorem accumulateBatch_trace (cfg : Config) (s : TrState) (b : Batch) :
    (accumulateBatch cfg s b).trace = s.trace := rfl

theorem accumulateBatch_nbTrSteps (cfg : Config) (s : TrState) (b : Batch) :
    (accumulateBatch cfg s b).nbTrSteps = s.nbTrSteps + 1 := rfl

theorem accumulateBatch_trAcc (cfg : Config) (s : TrState) (b : Batch) :
    (accumulateBatch cfg s b).trAcc
      = s.trAcc + (b.correct : ℚ) / (b.size : ℚ) := rfl

theorem accumulateBatch_trLoss_plain (cfg : Config) (s : TrState) (b : Batch)
    (hfp : cfg.fp16 = false) (hk : cfg.gradient_accumulation_steps = 1) :
    (accumulateBatch cfg s b).trLoss = s.trLoss + b.loss := by
  simp [accumulateBatch, hfp, hk]

theorem boundaryStep_gradNan_false (cfg : Config) (s : TrState) (idx : ℕ) :
    boundaryStep cfg s idx false
      = { s with globalStep := s.globalStep + 1, grads := [],
                 trace := s.trace ++ [⟨idx, true, true⟩] } := by
  unfold boundaryStep
  split_ifs with h1 h2
  · simp at h2
  · rfl
  · rfl

theorem boundaryStep_trLoss (cfg : Config) (s : TrState) (idx : ℕ) (g : Bool) :
    (boundaryStep cfg s idx g).trLoss = s.trLoss := by
  unfold boundaryStep; split_ifs <;> rfl

theorem boundaryStep_trAcc (cfg : Config) (s : TrState) (idx : ℕ) (g : Bool) :
    (boundaryStep cfg s idx g).trAcc = s.trAcc := by
  unfold boundaryStep; split_ifs <;> rfl

theorem boundaryStep_nbTrSteps (cfg : Config) (s : TrState) (idx : ℕ) (g : Bool) :
    (boundaryStep cfg s idx g).nbTrSteps = s.nbTrSteps := by
  unfold boundaryStep; split_ifs <;> rfl

theorem trainBatch_globalStep (cfg : Config) (s : TrState) (t : ℕ) (b : Batch)
    (hb : b.gradNan = false) :
    (trainBatch cfg s t b).globalStep
      = s.globalStep
        + if (t + 1) % cfg.gradient_accumulation_steps = 0 then 1 else 0 := by
  unfold trainBatch
  by_cases hc : (t + 1) % cfg.gradient_accumulation_steps = 0
  · rw [if_pos hc, if_pos hc, hb, boundaryStep_gradNan_false]
    rfl
  · rw [if_neg hc, if_neg hc, accumulateBatch_globalStep]
    omega

theorem trainBatch_trace (cfg : Config) (s : TrState) (t : ℕ) (b : Batch)
    (hb : b.gradNan = false) :
    (trainBatch cfg s t b).trace
      = s.trace ++ (if (t + 1) % cfg.gradient_accumulation_steps = 0
                    then [(⟨t + 1, true, true⟩ : TrainEvent)] else []) := by
  unfold trainBatch
  by_cases hc : (t + 1) % cfg.gradient_accumulation_steps = 0
  · rw [if_pos hc, if_pos hc, hb, boundaryStep_gradNan_false]
    show (accumulateBatch cfg s b).trace ++ _ = _
    rw [accumulateBatch_trace]
  · rw [if_neg hc, if_neg hc, accumulateBatch_trace, List.append_nil]

theorem trainBatch_nbTrSteps (cfg : Config) (s : TrState) (t : ℕ) (b : Batch) :
    (trainBatch cfg s t b).nbTrSteps = s.nbTrSteps + 1 := by
  unfold trainBatch
  split_ifs
  · rw [boundaryStep_nbTrSteps, accumulateBatch_nbTrSteps]
  · rw [accumulateBatch_nbTrSteps]

theorem trainBatch_trAcc (cfg : Config) (s : TrState) (t : ℕ) (b : Batch) :
    (trainBatch cfg s t b).trAcc
      = s.trAcc + (b.correct : ℚ) / (b.size : ℚ) := by
  unfold trainBatch
  split_ifs
  · rw [boundaryStep_trAcc, accumulateBatch_trAcc]
  · rw [accumulateBatch_trAcc]

theorem trainBatch_trLoss_plain (cfg : Config) (s : TrState) (t : ℕ) (b : Batch)
    (hfp : cfg.fp16 = false) (hk : cfg.gradient_accumulation_steps = 1) :
    (trainBatch cfg s t b).trLoss = s.trLoss + b.loss := by
  unfold trainBatch
  split_ifs
  · rw [boundaryStep_trLoss, accumulateBatch_trLoss_plain cfg s b hfp hk]
  · rw [accumulateBatch_trLoss_plain cfg s b hfp hk]

theorem runEpochAux_cons (cfg : Config) (s : TrState) (t : ℕ) (b : Batch)
    (bs : List Batch) :
    runEpochAux cfg s t (b :: bs)
      = runEpochAux cfg (trainBatch cfg s t b) (t + 1) bs := rfl

theorem runEpochAux_globalStep (cfg : Config) (bs : List Batch) :
    ∀ (s : TrState) (t : ℕ), (∀ b ∈ bs, b.gradNan = false) →
      (runEpochAux cfg s t bs).globalStep + t / cfg.gradient_accumulation_steps
        = s.globalStep + (t + bs.length) / cfg.gradient_accumulation_steps := by
  induction bs with
  | nil => intro s t _; simp [runEpochAux]
  | cons b bs ih =>
      intro s t hn
      have hb : b.gradNan = false := hn b (List.mem_cons_self b bs)
      have h1 := ih (trainBatch cfg s t b) (t + 1)
        (fun x hx => hn x (List.mem_cons_of_mem b hx))
      rw [trainBatch_globalStep cfg s t b hb] at h1
      have h2 : (t + 1) / cfg.gradient_accumulation_steps
          = t / cfg.gradient_accumulation_steps
            + if (t + 1) % cfg.gradient_accumulation_steps = 0 then 1 else 0 := by
        rw [Nat.succ_div]
        simp only [Nat.dvd_iff_mod_eq_zero]
      have h3 : t + 1 + bs.length = t + (bs.length + 1) := by omega
      rw [h3, h2] at h1
      rw [runEpochAux_cons, List.length_cons]
      by_cases hc : (t + 1) % cfg.gradient_accumulation_steps = 0
      · simp only [if_pos hc] at h1
        omega
      · simp only [if_neg hc] at h1
        omega

theorem runEpochAux_trace (cfg : Config) (bs : List Batch) :
    ∀ (s : TrState) (t : ℕ), (∀ b ∈ bs, b.gradNan = false) →
      (runEpochAux cfg s t bs).trace
        = s.trace ++ traceSeg cfg.gradient_accumulation_steps t bs.length := by
  induction bs with
  | nil => intro s t _; simp [runEpochAux, traceSeg]
  | cons b bs ih =>
      intro s t hn
      rw [runEpochAux_cons, ih _ _ (fun x hx => hn x (List.mem_cons_of_mem b hx)),
          trainBatch_trace cfg s t b (hn b (List.mem_cons_self b bs)),
          List.length_cons, traceSeg, List.append_assoc]

theorem runEpochAux_nbTrSteps (cfg : Config) (bs : List Batch) :
    ∀ (s : TrState) (t : ℕ),
      (runEpochAux cfg s t bs).nbTrSteps = s.nbTrSteps + bs.length := by
  induction bs with
  | nil => intro s t; simp [runEpochAux]
  | cons b bs ih =>
      intro s t
      rw [runEpochAux_cons, ih, trainBatch_nbTrSteps, List.length_cons]
      omega

theorem runEpochAux_trAcc (cfg : Config) (bs : List Batch) :
    ∀ (s : TrState) (t : ℕ),
      (runEpochAux cfg s t bs).trAcc
        = s.trAcc + (bs.map (fun b => (b.correct : ℚ) / (b.size : ℚ))).sum := by
  induction bs with
  | nil => intro s t; simp [runEpochAux]
  | cons b bs ih =>
      intro s t
      rw [runEpochAux_cons, ih, trainBatch_trAcc, List.map_cons, List.sum_cons]
      ring

theorem runEpochAux_trLoss_plain (cfg : Config) (bs : List Batch)
    (hfp : cfg.fp16 = false) (hk : cfg.gradient_accumulation_steps = 1) :
    ∀ (s : TrState) (t : ℕ),
      (runEpochAux cfg s t bs).trLoss = s.trLoss + (bs.map Batch.loss).sum := by
  induction bs with
  | nil => intro s t; simp [runEpochAux]
  | cons b bs ih =>
      intro s t
      rw [runEpochAux_cons, ih, trainBatch_trLoss_plain cfg s t b hfp hk,
          List.map_cons, List.sum_cons]
      ring

theorem mem_updateIndicesFrom (k : ℕ) :
    ∀ (n t j : ℕ),
      j ∈ updateIndicesFrom k t n ↔ t + 1 ≤ j ∧ j ≤ t + n ∧ j % k = 0 := by
  intro n
  induction n with
  | zero =>
      intro t j
      simp only [updateIndicesFrom, List.not_mem_nil, false_iff]
      omega
  | succ n ih =>
      intro t j
      rw [updateIndicesFrom]
      simp only [List.mem_append, ih (t + 1)]
      by_cases hc : (t + 1) % k = 0
      · simp only [if_pos hc, List.mem_singleton]
        constructor
        · rintro (rfl | ⟨h1, h2, h3⟩)
          · exact ⟨by omega, by omega, hc⟩
          · exact ⟨by omega, by omega, h3⟩
        · rintro ⟨h1, h2, h3⟩
          by_cases hj : j = t + 1
          · exact Or.inl hj
          · exact Or.inr ⟨by omega, by omega, h3⟩
      · simp only [if_neg hc, List.not_mem_nil, false_or]
        constructor
        · rintro ⟨h1, h2, h3⟩
          exact ⟨by omega, by omega, h3⟩
        · rintro ⟨h1, h2, h3⟩
          refine ⟨?_, by omega, h3⟩
          rcases Nat.eq_or_lt_of_le h1 with h | h
          · exfalso
            apply hc
            rw [h]
            exact h3
          · omega

theorem mem_updateIndices (k n j : ℕ) :
    j ∈ updateIndices k n ↔ 1 ≤ j ∧ j ≤ n ∧ j % k = 0 := by
  have h := mem_updateIndicesFrom k n 0 j
  simpa [updateIndices] using h

theorem updateIndicesFrom_length (k : ℕ) :
    ∀ (n t : ℕ), (updateIndicesFrom k t n).length + t / k = (t + n) / k := by
  intro n
  induction n with
  | zero => intro t; simp [updateIndicesFrom]
  | succ n ih =>
      intro t
      have h1 := ih (t + 1)
      have h2 : (t + 1) / k = t / k + if (t + 1) % k = 0 then 1 else 0 := by
        rw [Nat.succ_div]
        simp only [Nat.dvd_iff_mod_eq_zero]
      have h3 : t + 1 + n = t + (n + 1) := by omega
      rw [h3, h2] at h1
      rw [updateIndicesFrom, List.length_append]
      by_cases hc : (t + 1) % k = 0
      · simp only [if_pos hc] at h1 ⊢
        simp only [List.length_singleton]
        omega
      · simp only [if_neg hc] at h1 ⊢
        simp only [List.length_nil]
        omega

theorem updateIndices_length (k n : ℕ) : (updateIndices k n).length = n / k := by
  have h := updateIndicesFrom_length k n 0
  simpa [updateIndices] using h

theorem traceSeg_eq (k : ℕ) :
    ∀ (n t : ℕ),
      traceSeg k t n
        = (updateIndicesFrom k t n).map (fun j => (⟨j, true, true⟩ : TrainEvent)) := by
  intro n
  induction n with
  | zero => intro t; rfl
  | succ n ih =>
      intro t
      rw [traceSeg, updateIndicesFrom, List.map_append, ih (t + 1)]
      by_cases hc : (t + 1) % k = 0
      · rw [if_pos hc, if_pos hc]
        rfl
      · rw [if_neg hc, if_neg hc]
        rfl

theorem traceSeg_zero (k n : ℕ) :
    traceSeg k 0 n
      = (updateIndices k n).map (fun j => (⟨j, true, true⟩ : TrainEvent)) := by
  rw [updateIndices, traceSeg_eq]

/-! ## C1: gradient accumulation -/

/-- C1: during an epoch over `n` batches with
`gradient_accumulation_steps = k ≥ 1` in which no non-finite gradient is
detected, the global step counter advances by exactly `n / k` (floor), and
an optimizer update together with a gradient clear happens exactly at the
batches whose 1-based index `j` satisfies `1 ≤ j ≤ n` and `j % k = 0`
(i.e. is a multiple of `k`; for `k = 1`, every batch), and at no other
batch: the event trace of the epoch consists precisely of one
update-and-clear event per such index, in order. -/
theorem c1_gradient_accumulation (cfg : Config) (lossScale : ℚ) (g : ℕ)
    (bs : List Batch)
    (hk : 1 ≤ cfg.gradient_accumulation_steps)
    (hn : ∀ b ∈ bs, b.gradNan = false) :
    (runEpoch cfg lossScale g bs).globalStep
        = g + bs.length / cfg.gradient_accumulation_steps ∧
    (runEpoch cfg lossScale g bs).trace
        = (updateIndices cfg.gradient_accumulation_steps bs.length).map
            (fun j => (⟨j, true, true⟩ : TrainEvent)) ∧
    (updateIndices cfg.gradient_accumulation_steps bs.length).length
        = bs.length / cfg.gradient_accumulation_steps ∧
    ∀ j, j ∈ updateIndices cfg.gradient_accumulation_steps bs.length
        ↔ 1 ≤ j ∧ j ≤ bs.length ∧ j % cfg.gradient_accumulation_steps = 0 := by
  refine ⟨?_, ?_, updateIndices_length _ _, fun j => mem_updateIndices _ _ j⟩
  · have h := runEpochAux_globalStep cfg bs (epochStart lossScale g) 0 hn
    simpa [runEpoch, epochStart] using h
  · have h := runEpochAux_trace cfg bs (epochStart lossScale g) 0 hn
    rw [runEpoch, h, traceSeg_zero]
    simp [epochStart]

/-- Witness for C1: five nan-free batches with accumulation count 2,
starting from global step 3, give global step 5 and updates at batches 2
and 4. -/
theorem c1_gradient_accumulation_witness :
    (runEpoch ⟨false, false, 2⟩ 1 3
        (List.replicate 5 (⟨1, 1, 1, false⟩ : Batch))).globalStep = 5 ∧
    (runEpoch ⟨false, false, 2⟩ 1 3
        (List.replicate 5 (⟨1, 1, 1, false⟩ : Batch))).trace
      = [⟨2, true, true⟩, ⟨4, true, true⟩] := by
  have h := c1_gradient_accumulation ⟨false, false, 2⟩ 1 3
    (List.replicate 5 (⟨1, 1, 1, false⟩ : Batch)) (by decide) (by decide)
  refine ⟨?_, ?_⟩
  · rw [h.1]
    decide
  · rw [h.2.1]
    decide

/-! ## C2: non-finite gradient back-off -/

/-- C2: at an update boundary in fp16 or CPU-optimizer mode, a detected
non-finite gradient halves the loss-scale factor, clears the accumulated
gradients, skips the optimizer update, leaves the global step counter
unchanged, and the training loop continues with the remaining batches
rather than raising; when no non-finite gradient is detected the loss-scale
factor is unchanged and the update (with its gradient clear and global-step
advance) proceeds. -/
theorem c2_nan_backoff (cfg : Config) (s : TrState) (t : ℕ) (b : Batch)
    (rest : List Batch)
    (hmode : (cfg.fp16 || cfg.optimize_on_cpu) = true)
    (hstep : (t + 1) % cfg.gradient_accumulation_steps = 0) :
    (b.gradNan = true →
      (trainBatch cfg s t b).lossScale = s.lossScale / 2 ∧
      (trainBatch cfg s t b).grads = [] ∧
      (trainBatch cfg s t b).globalStep = s.globalStep ∧
      (trainBatch cfg s t b).trace = s.trace ++ [⟨t + 1, false, true⟩]) ∧
    (b.gradNan = false →
      (trainBatch cfg s t b).lossScale = s.lossScale ∧
      (trainBatch cfg s t b).grads = [] ∧
      (trainBatch cfg s t b).globalStep = s.globalStep + 1 ∧
      (trainBatch cfg s t b).trace = s.trace ++ [⟨t + 1, true, true⟩]) ∧
    runEpochAux cfg s t (b :: rest)
      = runEpochAux cfg (trainBatch cfg s t b) (t + 1) rest := by
  refine ⟨?_, ?_, rfl⟩
  · intro hnan
    unfold trainBatch boundaryStep
    rw [if_pos hstep, hnan, if_pos hmode, if_pos rfl]
    refine ⟨?_, rfl, ?_, ?_⟩
    · show (accumulateBatch cfg s b).lossScale / 2 = s.lossScale / 2
      rw [accumulateBatch_lossScale]
    · show (accumulateBatch cfg s b).globalStep = s.globalStep
      exact accumulateBatch_globalStep cfg s b
    · show (accumulateBatch cfg s b).trace ++ _ = _
      rw [accumulateBatch_trace]
  · intro hnan
    unfold trainBatch
    rw [if_pos hstep, hnan, boundaryStep_gradNan_false]
    refine ⟨?_, rfl, ?_, ?_⟩
    · show (accumulateBatch cfg s b).lossScale = s.lossScale
      exact accumulateBatch_lossScale cfg s b
    · show (accumulateBatch cfg s b).globalStep + 1 = s.globalStep + 1
      rw [accumulateBatch_globalStep]
    · show (accumulateBatch cfg s b).trace ++ _ = _
      rw [accumulateBatch_trace]

/-- Witness for C2: in fp16 mode with loss scale 8 at a boundary batch with
a detected non-finite gradient, the loss scale becomes 4 and the global
step stays 5; the same batch without the detection leaves the scale at 8
and advances the step to 6. -/
theorem c2_nan_backoff_witness :
    (trainBatch ⟨true, false, 2⟩ (epochStart 8 5) 1 ⟨1, 1, 1, true⟩).lossScale = 4 ∧
    (trainBatch ⟨true, false, 2⟩ (epochStart 8 5) 1 ⟨1, 1, 1, true⟩).globalStep = 5 ∧
    (trainBatch ⟨true, false, 2⟩ (epochStart 8 5) 1 ⟨1, 1, 1, false⟩).lossScale = 8 ∧
    (trainBatch ⟨true, false, 2⟩ (epochStart 8 5) 1 ⟨1, 1, 1, false⟩).globalStep = 6 := by
  have h1 := c2_nan_backoff ⟨true, false, 2⟩ (epochStart 8 5) 1 ⟨1, 1, 1, true⟩ []
    rfl (by decide)
  have h2 := c2_nan_backoff ⟨true, false, 2⟩ (epochStart 8 5) 1 ⟨1, 1, 1, false⟩ []
    rfl (by decide)
  obtain ⟨hs1, _, hg1, _⟩ := h1.1 rfl
  obtain ⟨hs2, _, hg2, _⟩ := h2.2.1 rfl
  exact ⟨hs1.trans (by norm_num [epochStart]), hg1.trans rfl,
         hs2.trans rfl, hg2.trans rfl⟩

/-! ## C7: end-of-epoch records -/

/-- C7 (amended): at the end of an epoch the recorded accuracy is the mean
over the epoch's batches of the per-batch arg-max accuracy, for every
configuration; the recorded loss is the mean of the per-batch losses as
accumulated after fp16 loss scaling and division by the accumulation count,
which equals the mean of the model's training losses when fp16 is off and
`gradient_accumulation_steps = 1`. -/
theorem c7_epoch_record (cfg : Config) (lossScale : ℚ) (bs : List Batch) :
    (epochRecord cfg lossScale bs).2
        = (bs.map (fun b => (b.correct : ℚ) / (b.size : ℚ))).sum / (bs.length : ℚ) ∧
    (cfg.fp16 = false → cfg.gradient_accumulation_steps = 1 →
      (epochRecord cfg lossScale bs).1
        = (bs.map Batch.loss).sum / (bs.length : ℚ)) := by
  constructor
  · have ha := runEpochAux_trAcc cfg bs (epochStart lossScale 0) 0
    have hn := runEpochAux_nbTrSteps cfg bs (epochStart lossScale 0) 0
    simp only [epochRecord, runEpoch]
    rw [ha, hn]
    simp [epochStart]
  · intro hfp hk
    have hl := runEpochAux_trLoss_plain cfg bs hfp hk (epochStart lossScale 0) 0
    have hn := runEpochAux_nbTrSteps cfg bs (epochStart lossScale 0) 0
    simp only [epochRecord, runEpoch]
    rw [hl, hn]
    simp [epochStart]

/-- Witness for C7 with fp16 off and accumulation count 1 over the two
batches of `c7Batches`. -/
theorem c7_epoch_record_witness :
    (epochRecord ⟨false, false, 1⟩ 128 c7Batches).2
        = (c7Batches.map (fun b => (b.correct : ℚ) / (b.size : ℚ))).sum
            / (c7Batches.length : ℚ) ∧
    (epochRecord ⟨false, false, 1⟩ 128 c7Batches).1
        = (c7Batches.map Batch.loss).sum / (c7Batches.length : ℚ) :=
  ⟨(c7_epoch_record ⟨false, false, 1⟩ 128 c7Batches).1,
   (c7_epoch_record ⟨false, false, 1⟩ 128 c7Batches).2 rfl rfl⟩

/-- C7 counterexample: with `gradient_accumulation_steps = 2` and fp16 off,
the recorded end-of-epoch loss over two batches of model loss 1 is 1/2, not
the mean model training loss 1: the loop accumulates `tr_loss` after the
division of the loss by the accumulation count. -/
theorem c7_counterexample :
    (epochRecord ⟨false, false, 2⟩ 128 c7Batches).1 = 1 / 2 ∧
    (c7Batches.map Batch.loss).sum / (c7Batches.length : ℚ) = 1 ∧
    (epochRecord ⟨false, false, 2⟩ 128 c7Batches).1
      < (c7Batches.map Batch.loss).sum / (c7Batches.length : ℚ) := by
  refine ⟨?_, ?_, ?_⟩ <;>
    norm_num [epochRecord, runEpoch, runEpochAux, trainBatch, accumulateBatch,
              boundaryStep, epochStart, c7Batches]

/-! ## Helper lemmas on `npMin` and the best-marker decision -/

theorem foldl_min_append_singleton (acc l : ℚ) (xs : List ℚ) :
    (xs ++ [l]).foldl min acc = min (xs.foldl min acc) l := by
  rw [List.foldl_append]
  rfl

theorem le_foldl_min (l acc : ℚ) (xs : List ℚ) :
    l ≤ xs.foldl min acc ↔ l ≤ acc ∧ ∀ x ∈ xs, l ≤ x := by
  induction xs generalizing acc with
  | nil => simp
  | cons x xs ih =>
      rw [List.foldl_cons, ih]
      simp only [le_min_iff, List.forall_mem_cons]
      tauto

theorem isBestCalc_iff (prior : List ℚ) (l : ℚ) :
    isBestCalc prior l = true ↔ ∀ x ∈ prior, l ≤ x := by
  rw [isBestCalc, decide_eq_true_eq]
  cases prior with
  | nil => simp [npMin]
  | cons p ps =>
      rw [List.cons_append]
      simp only [npMin, foldl_min_append_singleton, List.forall_mem_cons]
      rw [eq_comm, min_eq_right_iff, le_foldl_min]

/-! ## C3: the best-checkpoint decision -/

/-- C3 (amended): the best marker is written exactly when the new mean
evaluation loss is less than or equal to every previous pass's mean loss —
a pass that merely ties the previous minimum is also marked best — and on
the loss sequence [0.9, 0.7, 0.8, 0.6] the marker is written on passes 1,
2 and 4 and not on pass 3. -/
theorem c3_best_marker (prior : List ℚ) (l : ℚ) :
    (isBestCalc prior l = true ↔ ∀ x ∈ prior, l ≤ x) ∧
    bestMarkers [9/10, 7/10, 8/10, 6/10] = [true, true, false, true] := by
  refine ⟨isBestCalc_iff prior l, ?_⟩
  norm_num [bestMarkers, bestMarkersAux, isBestCalc, npMin, min_def]

/-- Witness for C3 (amended): a pass of mean loss 0.6 after passes of mean
losses 0.9 and 0.7 is marked best. -/
theorem c3_best_marker_witness :
    isBestCalc [9/10, 7/10] (6/10) = true :=
  (c3_best_marker [9/10, 7/10] (6/10)).1.mpr (by norm_num)

/-- C3 counterexample: a second evaluation pass whose mean loss 1/2 merely
equals the previous minimum 1/2 — some previous pass's loss is less than or
equal to it, so it is not strictly below all previous losses — is still
marked best by the code (`is_best = eval_loss == np.min(tune_losses)` with
the new loss already appended). -/
theorem c3_counterexample :
    (tune (fun _ => 1) "r" 2 [⟨1/2, [], 0, 1⟩] [1/2] false).evalLoss = 1 / 2 ∧
    (tune (fun _ => 1) "r" 2 [⟨1/2, [], 0, 1⟩] [1/2] false).saveCall.isBest = true ∧
    (1 : ℚ) / 2 ∈ ([1/2] : List ℚ) ∧
    (1 : ℚ) / 2 ≤ 1 / 2 := by
  refine ⟨?_, ?_, by norm_num, le_refl _⟩
  · norm_num [tune]
  · norm_num [tune, isBestCalc, npMin, min_def]

/-! ## Helper lemmas on `softmax` -/

theorem sum_map_div (xs : List ℚ) (c : ℚ) :
    (xs.map (fun x => x / c)).sum = xs.sum / c := by
  induction xs with
  | nil => simp
  | cons x xs ih => simp [ih, add_div]

theorem softmax_length (f : ℚ → ℚ) (xs : List ℚ) :
    (softmax f xs).length = xs.length := by
  simp [softmax]

theorem sum_map_pos (f : ℚ → ℚ) (hf : ∀ x, 0 < f x) (xs : List ℚ)
    (h : xs ≠ []) : 0 < (xs.map f).sum := by
  apply List.sum_pos
  · intro y hy
    rcases List.mem_map.mp hy with ⟨x, _, rfl⟩
    exact hf x
  · simpa using h

theorem softmax_sum (f : ℚ → ℚ) (hf : ∀ x, 0 < f x) (xs : List ℚ)
    (h : xs ≠ []) : (softmax f xs).sum = 1 := by
  have hpos := sum_map_pos f hf xs h
  have h1 : softmax f xs = (xs.map f).map (fun y => y / (xs.map f).sum) := by
    rw [List.map_map]
    rfl
  rw [h1, sum_map_div, div_self (ne_of_gt hpos)]

theorem softmax_nonneg (f : ℚ → ℚ) (hf : ∀ x, 0 < f x) (xs : List ℚ) :
    ∀ p ∈ softmax f xs, 0 ≤ p := by
  intro p hp
  rcases List.mem_map.mp hp with ⟨x, hx, rfl⟩
  have hne : xs ≠ [] := by
    intro he
    rw [he] at hx
    exact absurd hx (List.not_mem_nil x)
  exact le_of_lt (div_pos (hf x) (sum_map_pos f hf xs hne))

theorem flatten_map_map {α β : Type} (g : α → β) (L : List (List α)) :
    (L.map (List.map g)).flatten = L.flatten.map g := by
  induction L with
  | nil => rfl
  | cons x L ih =>
      rw [List.map_cons, List.flatten_cons, List.flatten_cons, List.map_append, ih]

/-! ## C8: the probability table -/

/-- C8: with prediction saving enabled, `tune` performs exactly one CSV
write, whose columns are the three fixed class names 'agreed', 'disagreed',
'unrelated' and whose rows are, in the evaluation set's sequential order
(the concatenation of the batches), the softmax of each example's logits;
with three logits per example every row has three entries, each
nonnegative, and sums to 1. -/
theorem c8_probability_table (f : ℚ → ℚ) (hf : ∀ x, 0 < f x)
    (run : String) (epoch : ℕ) (batches : List EvalBatch) (prior : List ℚ)
    (examples : List (List ℚ))
    (hseq : (batches.map EvalBatch.logitsRows).flatten = examples)
    (h3 : ∀ e ∈ examples, e.length = 3) :
    (tune f run epoch batches prior true).writes
        = [⟨["agreed", "disagreed", "unrelated"], examples.map (softmax f)⟩] ∧
    (examples.map (softmax f)).length = examples.length ∧
    ∀ row ∈ examples.map (softmax f),
      row.length = 3 ∧ row.sum = 1 ∧ ∀ p ∈ row, 0 ≤ p := by
  refine ⟨?_, examples.length_map _, ?_⟩
  · have hrows : (batches.map (fun b => b.logitsRows.map (softmax f))).flatten
        = examples.map (softmax f) := by
      have h1 : batches.map (fun b => b.logitsRows.map (softmax f))
          = (batches.map EvalBatch.logitsRows).map (List.map (softmax f)) := by
        rw [List.map_map]
        rfl
      rw [h1, flatten_map_map, hseq]
    simp [tune, hrows]
  · intro row hrow
    rcases List.mem_map.mp hrow with ⟨e, he, rfl⟩
    have hne : e ≠ [] := by
      intro h
      have h2 := h3 e he
      rw [h] at h2
      simp at h2
    refine ⟨?_, softmax_sum f hf e hne, softmax_nonneg f hf e⟩
    rw [softmax_length]
    exact h3 e he

/-- Witness for C8: one evaluation batch of two examples with three logits
each, with the constant-one function standing in for the exponential. -/
theorem c8_probability_table_witness :
    (tune (fun _ => (1 : ℚ)) "r" 1 [⟨0, [[0, 0, 0], [1, 2, 3]], 0, 2⟩] [] true).writes
        = [⟨["agreed", "disagreed", "unrelated"],
            ([[0, 0, 0], [1, 2, 3]] : List (List ℚ)).map (softmax (fun _ => (1 : ℚ)))⟩] ∧
    (([[0, 0, 0], [1, 2, 3]] : List (List ℚ)).map (softmax (fun _ => (1 : ℚ)))).length
        = ([[0, 0, 0], [1, 2, 3]] : List (List ℚ)).length ∧
    ∀ row ∈ ([[0, 0, 0], [1, 2, 3]] : List (List ℚ)).map (softmax (fun _ => (1 : ℚ))),
      row.length = 3 ∧ row.sum = 1 ∧ ∀ p ∈ row, 0 ≤ p :=
  c8_probability_table (fun _ => 1) (fun _ => one_pos) "r" 1
    [⟨0, [[0, 0, 0], [1, 2, 3]], 0, 2⟩] [] [[0, 0, 0], [1, 2, 3]] rfl
    (by norm_num)

/-! ## Helper lemmas on `mainRun` -/

theorem taskCheck_effArgs (a : Args) : taskCheck (effArgs a) = none := rfl

/-! ## C9: the task-name overwrite -/

/-- C9: for every command-line task name, line 190 overwrites the task name
with 'wsdm_pseudo' before the lookup, the lookup always selects
`WSDMPseudoProcessor`, the task check never raises, and consequently
`mainRun` can never end in the task-not-found error: its error component is
always one of the other errors or none. -/
theorem c9_task_name_override (a : Args) (env : Env) :
    (effArgs a).task_name = "wsdm_pseudo" ∧
    processors.lookup (lowerString (effArgs a).task_name) = some ProcKind.wsdmPseudo ∧
    taskCheck (effArgs a) = none ∧
    (mainRun a env).2 ∈ [none, some PyError.valueErrorGradAccum,
                         some PyError.valueErrorTrainEval,
                         some PyError.valueErrorOutputDir,
                         some PyError.typeErrorNoneNotIterable] := by
  refine ⟨rfl, rfl, rfl, ?_⟩
  by_cases h1 : (effArgs a).gradient_accumulation_steps < 1
  · simp [mainRun, h1]
  · by_cases h2 : (effArgs a).do_train = false ∧ (effArgs a).do_eval = false
    · simp [mainRun, h1, h2]
    · by_cases h3 : env.outputDirNonEmpty = true
      · simp [mainRun, h1, h2, h3]
      · by_cases h4 : (effArgs a).do_train = true
        · simp [mainRun, h1, h2, h3, h4, taskCheck_effArgs, convertExamplesOutcome]
        · have h5 : (effArgs a).do_eval = true := by
            cases he : (effArgs a).do_eval
            · exact absurd ⟨by simpa using h4, he⟩ h2
            · rfl
          simp [mainRun, h1, h2, h3, h4, h5, taskCheck_effArgs,
                convertExamplesOutcome]

/-! ## C5: fail-fast configuration checks -/

/-- C5 (amended): a configuration with accumulation steps < 1, or with
neither do_train nor do_eval, or with a non-empty existing output
directory, raises a ValueError before any observable event — no tokenizer,
model, dataset loading or feature conversion happens; an unknown task name,
however, is not rejected, because the task name is overwritten with
'wsdm_pseudo' before the lookup. -/
theorem c5_failfast (a : Args) (env : Env)
    (h : a.gradient_accumulation_steps < 1
         ∨ (a.do_train = false ∧ a.do_eval = false)
         ∨ env.outputDirNonEmpty = true) :
    (mainRun a env).1 = [] ∧
    (mainRun a env).2 ∈ [some PyError.valueErrorGradAccum,
                         some PyError.valueErrorTrainEval,
                         some PyError.valueErrorOutputDir] := by
  by_cases h1 : (effArgs a).gradient_accumulation_steps < 1
  · simp [mainRun, h1]
  · by_cases h2 : (effArgs a).do_train = false ∧ (effArgs a).do_eval = false
    · simp [mainRun, h1, h2]
    · by_cases h3 : env.outputDirNonEmpty = true
      · simp [mainRun, h1, h2, h3]
      · exfalso
        rcases h with h | h | h
        · exact h1 h
        · exact h2 ⟨h.1, h.2⟩
        · exact h3 h

/-- Witness for C5 (amended): `gradient_accumulation_steps = 0` is rejected
with no event performed. -/
theorem c5_failfast_witness :
    (mainRun { badTaskArgs with gradient_accumulation_steps := 0 } ⟨false⟩).1 = [] ∧
    (mainRun { badTaskArgs with gradient_accumulation_steps := 0 } ⟨false⟩).2
      ∈ [some PyError.valueErrorGradAccum, some PyError.valueErrorTrainEval,
         some PyError.valueErrorOutputDir] :=
  c5_failfast { badTaskArgs with gradient_accumulation_steps := 0 } ⟨false⟩
    (Or.inl (by norm_num))

/-- C5 counterexample: the configuration `badTaskArgs` carries the unknown
task name 'no_such_task' and is otherwise valid, yet the program raises no
configuration error at all and proceeds to load the training data — the
unknown-task configuration is not rejected before data loading. -/
theorem c5_counterexample :
    processors.lookup (lowerString "no_such_task") = none ∧
    mainRun badTaskArgs ⟨false⟩
      = ([Event.loadTokenizer, Event.loadTrainExamples, Event.loadModel,
          Event.loadCheckpoint fixedCkptDir "PseudoFirstLevel" false,
          Event.convertTrainFeatures, Event.loadDevExamples,
          Event.convertDevFeatures, Event.runTraining, Event.evalPass], none) ∧
    Event.loadTrainExamples
      ∈ [Event.loadTokenizer, Event.loadTrainExamples, Event.loadModel,
         Event.loadCheckpoint fixedCkptDir "PseudoFirstLevel" false,
         Event.convertTrainFeatures, Event.loadDevExamples,
         Event.convertDevFeatures, Event.runTraining, Event.evalPass] := by
  refine ⟨rfl, rfl, ?_⟩
  simp

/-! ## C4: evaluation without training -/

/-- C4 evidence (code bug): with `do_eval` selected and `do_train` not
selected, the run performs only the tokenizer load, the model load and the
fixed bootstrap checkpoint load, then aborts with a TypeError at the
unconditional train-feature conversion of line 316 (whose argument
`train_examples` is `None`); in particular no evaluation pass is reached
and the program does not exit normally. -/
theorem c4_eval_only_crashes :
    mainRun evalOnlyArgs ⟨false⟩
      = ([Event.loadTokenizer, Event.loadModel,
          Event.loadCheckpoint fixedCkptDir "PseudoFirstLevel" false],
         some PyError.typeErrorNoneNotIterable) ∧
    ((mainRun evalOnlyArgs ⟨false⟩).1.contains Event.evalPass) = false := by
  refine ⟨rfl, rfl⟩

/-! ## C6: checkpoint loading and the resume flags -/

/-- C6 (amended): the `--resume` and `--resume_epoch` flags are parsed but
never consulted — `mainRun` is entirely independent of them, and the only
checkpoint load it ever performs is the fixed bootstrap checkpoint
'PseudoFirstLevel' from the fixed directory with optimizer state not
restored — while the checkpoints saved by `tune` are keyed by the run name
concatenated with the epoch number. -/
theorem c6_checkpoint_loading (a : Args) (env : Env) (r : Bool) (e : Int)
    (f : ℚ → ℚ) (run : String) (ep : ℕ) (batches : List EvalBatch)
    (prior : List ℚ) (sp : Bool) :
    mainRun a env = mainRun { a with resume := r, resume_epoch := e } env ∧
    ((mainRun a env).1.filter isLoadCheckpoint).all
        (fun ev => decide (ev = Event.loadCheckpoint fixedCkptDir "PseudoFirstLevel" false))
      = true ∧
    (tune f run ep batches prior sp).saveCall.name = run ++ toString ep := by
  refine ⟨rfl, ?_, rfl⟩
  by_cases h1 : (effArgs a).gradient_accumulation_steps < 1
  · simp [mainRun, h1]
  · by_cases h2 : (effArgs a).do_train = false ∧ (effArgs a).do_eval = false
    · simp [mainRun, h1, h2]
    · by_cases h3 : env.outputDirNonEmpty = true
      · simp [mainRun, h1, h2, h3]
      · by_cases h4 : (effArgs a).do_train = true
        · simp [mainRun, h1, h2, h3, h4, taskCheck_effArgs, convertExamplesOutcome,
                isLoadCheckpoint]
        · have h5 : (effArgs a).do_eval = true := by
            cases he : (effArgs a).do_eval
            · exact absurd ⟨by simpa using h4, he⟩ h2
            · rfl
          simp [mainRun, h1, h2, h3, h4, h5, taskCheck_effArgs,
                convertExamplesOutcome, isLoadCheckpoint]

/-- C6 counterexample: with `--resume` set and `resume_epoch = 7` for run
'myrun', the only checkpoint load is still the fixed bootstrap checkpoint
'PseudoFirstLevel' without optimizer state — not a checkpoint keyed by the
requested run name and epoch — and the run behaves identically with the
resume flags cleared. -/
theorem c6_resume_counterexample :
    (mainRun resumeArgs ⟨false⟩).1.filter isLoadCheckpoint
      = [Event.loadCheckpoint fixedCkptDir "PseudoFirstLevel" false] ∧
    mainRun resumeArgs ⟨false⟩
      = mainRun { resumeArgs with resume := false, resume_epoch := 1 } ⟨false⟩ ∧
    resumeArgs.resume = true ∧
    resumeArgs.resume_epoch = 7 ∧
    (("PseudoFirstLevel" : String)
        == resumeArgs.run_name ++ toString resumeArgs.resume_epoch) = false := by
  refine ⟨rfl, rfl, rfl, rfl, rfl⟩

/-! ## Helper lemmas on dataloader chunking -/

theorem chunkAux_flatten {α : Type} (bs : ℕ) (hbs : 1 ≤ bs) :
    ∀ (fuel : ℕ) (l : List α), l.length ≤ fuel →
      (chunkAux bs fuel l).flatten = l := by
  intro fuel
  induction fuel with
  | zero =>
      intro l hl
      have h : l = [] := List.length_eq_zero.mp (by omega)
      rw [h]
      rfl
  | succ n ih =>
      intro l hl
      cases l with
      | nil => rfl
      | cons x xs =>
          show ((x :: xs).take bs :: chunkAux bs n ((x :: xs).drop bs)).flatten
              = x :: xs
          rw [List.flatten_cons, ih ((x :: xs).drop bs) ?_,
              List.take_append_drop]
          rw [List.length_drop]
          simp only [List.length_cons] at hl ⊢
          omega

theorem chunkAux_length_le {α : Type} (bs : ℕ) :
    ∀ (fuel : ℕ) (l : List α) (c : List α),
      c ∈ chunkAux bs fuel l → c.length ≤ bs := by
  intro fuel
  induction fuel with
  | zero =>
      intro l c hc
      simp [chunkAux] at hc
  | succ n ih =>
      intro l c hc
      cases l with
      | nil => simp [chunkAux] at hc
      | cons x xs =>
          have hc2 : c = (x :: xs).take bs ∨ c ∈ chunkAux bs n ((x :: xs).drop bs) := by
            simpa [chunkAux] using hc
          rcases hc2 with rfl | hc2
          · rw [List.length_take]
            omega
          · exact ih _ c hc2

theorem chunkAux_length_dvd {α : Type} (bs : ℕ) (hbs : 1 ≤ bs) :
    ∀ (fuel : ℕ) (l : List α), l.length ≤ fuel → bs ∣ l.length →
      ∀ c ∈ chunkAux bs fuel l, c.length = bs := by
  intro fuel
  induction fuel with
  | zero =>
      intro l hl hd c hc
      simp [chunkAux] at hc
  | succ n ih =>
      intro l hl hd c hc
      cases l with
      | nil => simp [chunkAux] at hc
      | cons x xs =>
          have hbsle : bs ≤ (x :: xs).length := by
            rcases hd with ⟨m, hm⟩
            rcases Nat.eq_zero_or_pos m with rfl | hmpos
            · simp only [List.length_cons, Nat.mul_zero] at hm
              omega
            · calc bs = bs * 1 := by omega
                _ ≤ bs * m := Nat.mul_le_mul_left bs hmpos
                _ = (x :: xs).length := hm.symm
          have hc2 : c = (x :: xs).take bs ∨ c ∈ chunkAux bs n ((x :: xs).drop bs) := by
            simpa [chunkAux] using hc
          rcases hc2 with rfl | hc2
          · rw [List.length_take]
            omega
          · apply ih ((x :: xs).drop bs) ?_ ?_ c hc2
            · rw [List.length_drop]
              simp only [List.length_cons] at hl ⊢
              omega
            · rw [List.length_drop]
              exact Nat.dvd_sub' hd (Nat.dvd_refl bs)

/-! ## C10: the dataloader batch size -/

/-- C10: the batch size actually used by the training dataloader is
`train_batch_size / k` — the floor of the Python true division of line 223
— not the raw command-line `train_batch_size`: the dataloader chunks the
dataset with that size, every produced batch has at most that many
examples (exactly that many when the dataset size is divisible by it), the
batches partition the dataset in order, and the `k` batches of one
optimizer update together cover at most `train_batch_size` examples. -/
theorem c10_dataloader_batch_size {α : Type} (tbs k : ℕ) (data : List α)
    (hk : 1 ≤ k) (hbs : 1 ≤ tbs / k) :
    usedTrainBatchSize tbs k = tbs / k ∧
    trainDataloaderBatches tbs k data = chunkList (tbs / k) data ∧
    (trainDataloaderBatches tbs k data).flatten = data ∧
    (∀ c ∈ trainDataloaderBatches tbs k data, c.length ≤ tbs / k) ∧
    ((tbs / k) ∣ data.length →
      ∀ c ∈ trainDataloaderBatches tbs k data, c.length = tbs / k) ∧
    usedTrainBatchSize tbs k * k ≤ tbs := by
  refine ⟨rfl, rfl, ?_, ?_, ?_, Nat.div_mul_le_self tbs k⟩
  · exact chunkAux_flatten (tbs / k) hbs data.length data le_rfl
  · intro c hc
    exact chunkAux_length_le (tbs / k) data.length data c hc
  · intro hd c hc
    exact chunkAux_length_dvd (tbs / k) hbs data.length data le_rfl hd c hc

/-- Witness for C10: command-line batch size 4 with accumulation count 2
chunks a four-element dataset into two batches of two. -/
theorem c10_dataloader_batch_size_witness :
    usedTrainBatchSize 4 2 = 4 / 2 ∧
    trainDataloaderBatches 4 2 [(1 : ℚ), 2, 3, 4]
        = chunkList (4 / 2) [(1 : ℚ), 2, 3, 4] ∧
    (trainDataloaderBatches 4 2 [(1 : ℚ), 2, 3, 4]).flatten = [(1 : ℚ), 2, 3, 4] ∧
    (∀ c ∈ trainDataloaderBatches 4 2 [(1 : ℚ), 2, 3, 4], c.length ≤ 4 / 2) ∧
    ((4 / 2) ∣ ([(1 : ℚ), 2, 3, 4] : List ℚ).length →
      ∀ c ∈ trainDataloaderBatches 4 2 [(1 : ℚ), 2, 3, 4], c.length = 4 / 2) ∧
    usedTrainBatchSize 4 2 * 2 ≤ 4 :=
  c10_dataloader_batch_size 4 2 [(1 : ℚ), 2, 3, 4] (by norm_num) (by norm_num)

end Hanshan
